import Mathlib

/-!
Shallow embedding of the Xandeum-Atlas network snapshot collector
(`src/lib/prpc/collector.ts`, `client.ts`, `errors.ts`, `http-client.ts`,
`schemas.ts`) in Lean 4, together with theorems settling the spec claims.

Modelling conventions:
* JavaScript numbers that the collector compares or stores are modelled as
  `Int` (timestamps in seconds, counters, timeouts in ms).  `ram_percent`,
  which is a genuine quotient, is modelled as `Rat`.
* Wall-clock reads (`Date.now()`) are modelled as explicit parameters
  (`now`, `durationMs`, `collectedAt`): the TypeScript functions read the
  clock, the Lean functions receive the reading.
* Network effects are modelled as outcome environments: a function from a
  seed IP to the settled outcome of its `getPods` call, a function from a
  pod to the settled outcome of its `getStats` call, and the settled
  outcome of the credits fetch.  `Promise.allSettled` never rejects, so a
  settled outcome is an `Except` value.
-/

namespace Atlas

/-- Model of `NodeStatus` from `src/types/index.ts`. -/
inductive NodeStatus where
  | online
  | degraded
  | offline
  | unknown
deriving DecidableEq, Repr

/-- Model of `Pod` from `src/types/index.ts` (the `credits` field lives on
`NodeWithStats` in the collector's output; on the wire a pod has these
fields). -/
structure Pod where
  pubkey : String
  address : String
  version : Option String
  last_seen_timestamp : Int
  uptime : Option Int
  storage_used : Option Int
deriving DecidableEq, Repr

/-- Model of `NodeStats` from `src/types/index.ts`. -/
structure NodeStats where
  active_streams : Int
  cpu_percent : Int
  current_index : Int
  file_size : Int
  last_updated : Int
  packets_received : Int
  packets_sent : Int
  ram_total : Int
  ram_used : Int
  total_bytes : Int
  total_pages : Int
  uptime : Int
deriving DecidableEq, Repr

/-- Model of `PodsResponse` from `src/types/index.ts`. -/
structure PodsResponse where
  pods : List Pod
  total_count : Int
deriving DecidableEq, Repr

/-- Model of `NodeWithStats` from `src/types/index.ts`: a `Pod` plus the enrichment
fields added by the collector. -/
structure NodeWithStats where
  pubkey : String
  address : String
  version : Option String
  last_seen_timestamp : Int
  uptime : Option Int
  storage_used : Option Int
  stats : Option NodeStats
  status : NodeStatus
  ram_percent : Option Rat
  uptime_formatted : Option String
  credits : Option Int
deriving DecidableEq, Repr

/-- Model of `CollectionError.type` from `src/types/index.ts`. -/
inductive CollectionErrorType where
  | seed_unreachable
  | stats_unreachable
  | validation_error
deriving DecidableEq, Repr

/-- Model of `CollectionError` from `src/types/index.ts`. -/
structure CollectionError where
  type : CollectionErrorType
  target : String
  error : String
deriving DecidableEq, Repr

/-- Model of `CollectionResult` from `src/types/index.ts`. -/
structure CollectionResult where
  nodes : List NodeWithStats
  total_discovered : Nat
  total_with_stats : Nat
  errors : List CollectionError
  duration_ms : Int
  collected_at : String
deriving DecidableEq, Repr

/-- A per-field validation issue, as carried by `ValidationError`
(`src/lib/prpc/errors.ts`): `{ path, message }`. -/
structure Issue where
  path : String
  message : String
deriving DecidableEq, Repr

/-- The `PrpcError` hierarchy from `src/lib/prpc/errors.ts`, as a sum of the
four subclasses plus the bare `PrpcError` base used for unknown throwables. -/
inductive PrpcFailure where
  | networkError (message : String)
  | timeoutError (timeoutMs : Int) (endpoint : String)
  | rpcError (message : String) (rpcCode : Int)
  | validationError (message : String) (issues : List Issue)
  | prpcOther (message : String)
deriving DecidableEq, Repr

/-- The `name` property each `PrpcError` subclass assigns in its
constructor (`errors.ts`). -/
def PrpcFailure.errName : PrpcFailure → String
  | .networkError _ => "NetworkError"
  | .timeoutError _ _ => "TimeoutError"
  | .rpcError _ _ => "RpcError"
  | .validationError _ _ => "ValidationError"
  | .prpcOther _ => "PrpcError"

/-- The `message` property of each error (`errors.ts`; `TimeoutError`
interpolates endpoint and duration). -/
def PrpcFailure.errMessage : PrpcFailure → String
  | .networkError m => m
  | .timeoutError ms ep =>
      "Request to " ++ ep ++ " timed out after " ++ toString ms ++ "ms"
  | .rpcError m _ => m
  | .validationError m _ => m
  | .prpcOther m => m

/-- Model of `isTimeoutError` from `src/lib/prpc/errors.ts` (an `instanceof
TimeoutError` check). -/
def isTimeoutError : PrpcFailure → Bool
  | .timeoutError _ _ => true
  | _ => false

/-- Model of `isNetworkError` from `src/lib/prpc/errors.ts` (an `instanceof
NetworkError` check). -/
def isNetworkError : PrpcFailure → Bool
  | .networkError _ => true
  | _ => false

/-- Model of `determineNodeStatus` from `src/lib/prpc/collector.ts` lines 93-101.
The source reads `now = Date.now() / 1000` itself; here `now` is a
parameter. -/
def determineNodeStatus (now lastSeenTimestamp : Int) : NodeStatus :=
  let age := now - lastSeenTimestamp
  if age < 240 then .online
  else if age < 600 then .degraded
  else if age < 3600 then .offline
  else .unknown

/-- Health ordering online > degraded > offline > unknown, used to state
status monotonicity. -/
def statusRank : NodeStatus → Nat
  | .online => 3
  | .degraded => 2
  | .offline => 1
  | .unknown => 0

/-- Model of `formatUptime` from `src/lib/prpc/collector.ts` lines 106-114
(`Math.floor` is `Int.fdiv`; JavaScript `%` truncates toward zero, which is
`Int.tmod`). -/
def formatUptime (seconds : Int) : String :=
  let days := Int.fdiv seconds 86400
  let hours := Int.fdiv (Int.tmod seconds 86400) 3600
  let minutes := Int.fdiv (Int.tmod seconds 3600) 60
  if days > 0 then toString days ++ "d " ++ toString hours ++ "h"
  else if hours > 0 then toString hours ++ "h " ++ toString minutes ++ "m"
  else toString minutes ++ "m"

/-! ### Peer Merge (`collector.ts` lines 161, 190-199)

`podMap` is a JavaScript `Map<string, Pod>`: insertion-ordered, `set` on an
existing key updates in place, `set` on a new key appends.  Modelled as an
association list with those exact semantics. -/

/-- Model of `Map.get`: first entry with the key (keys are unique in a `Map`). -/
def mapGet (m : List (String × Pod)) (k : String) : Option Pod :=
  match m with
  | [] => none
  | (k', v) :: rest => if k' = k then some v else mapGet rest k

/-- Model of `Map.set`: update in place when the key exists, append otherwise. -/
def mapSet (m : List (String × Pod)) (k : String) (v : Pod) :
    List (String × Pod) :=
  match m with
  | [] => [(k, v)]
  | (k', v') :: rest =>
      if k' = k then (k, v) :: rest else (k', v') :: mapSet rest k v

/-- The body of the merge loop (`collector.ts` lines 191-199): record a new
pubkey; replace an existing record only when the new `last_seen_timestamp`
is strictly greater. -/
def mergePod (m : List (String × Pod)) (pod : Pod) : List (String × Pod) :=
  match mapGet m pod.pubkey with
  | none => mapSet m pod.pubkey pod
  | some existing =>
      if pod.last_seen_timestamp > existing.last_seen_timestamp then
        mapSet m pod.pubkey pod
      else m

/-- Folding one source's pod list into the map (`for (const pod of
result.value.pods)`). -/
def mergePods (m : List (String × Pod)) (pods : List Pod) :
    List (String × Pod) :=
  pods.foldl mergePod m

/-! ### Configuration (`collector.ts` lines 17-42, `seeds.ts`) -/

/-- Model of `SEED_IPS` from `src/lib/prpc/seeds.ts`. -/
def SEED_IPS : List String :=
  ["173.212.220.65", "161.97.97.41", "192.190.136.36", "192.190.136.38",
   "207.244.255.1", "192.190.136.28", "192.190.136.29", "173.212.203.145"]

/-- Model of `PRPC_CONFIG.DEFAULT_TIMEOUT` from `seeds.ts`. -/
def PRPC_DEFAULT_TIMEOUT : Int := 8000

/-- Model of `PRPC_CONFIG.MAX_TIMEOUT` from `seeds.ts`. -/
def PRPC_MAX_TIMEOUT : Int := 30000

/-- Model of `PRPC_CONFIG.PORT` from `seeds.ts`. -/
def PRPC_PORT : Int := 6000

/-- The timeout stored by the `PrpcClient` constructor (`client.ts` lines
54-57): `Math.min(options.timeout ?? DEFAULT_TIMEOUT, MAX_TIMEOUT)`. -/
def clientTimeout (optTimeout : Option Int) : Int :=
  min (optTimeout.getD PRPC_DEFAULT_TIMEOUT) PRPC_MAX_TIMEOUT

/-- The base URL stored by the `PrpcClient` constructor (`client.ts` lines
52-53). -/
def clientBaseUrl (ip : String) (optPort : Option Int) : String :=
  "http://" ++ ip ++ ":" ++ toString (optPort.getD PRPC_PORT) ++ "/rpc"

/-- Model of `CollectorConfig` with `DEFAULT_CONFIG` (`collector.ts` lines 17-42)
folded in as field defaults: `{ ...DEFAULT_CONFIG, ...config }` is modelled
by a structure whose every field is present, defaulted as in
`DEFAULT_CONFIG`. -/
structure CollectorConfig where
  timeout : Int := 8000
  concurrency : Nat := 10
  fetchStats : Bool := true
  fetchCredits : Bool := false
  creditsUrl : String := "https://podcredits.xandeum.network/api/pods-credits"
  seeds : List String := SEED_IPS
  debug : Bool := false
deriving DecidableEq, Repr

/-! ### Batch processing (`collector.ts` lines 119-145)

The loop `for (let i = 0; i < items.length; i += concurrency)` slices the
item list into consecutive chunks of length `concurrency` (the last chunk
may be shorter).  For `concurrency = 0` the JavaScript loop never advances;
the Lean model returns `[]` there, and every theorem about batching assumes
`0 < concurrency`. -/

/-- The slicing loop, structurally recursive on a fuel that bounds the
iteration count (each iteration with `0 < c` consumes at least one
element, so `xs.length` iterations always suffice). -/
def chunkGo {α : Type} (c : Nat) (fuel : Nat) (xs : List α) :
    List (List α) :=
  match fuel, xs with
  | _, [] => []
  | 0, _ => []
  | fuel + 1, xs => xs.take c :: chunkGo c fuel (xs.drop c)

/-- The batch decomposition performed by `processBatch`'s loop:
`items.slice(i, i + concurrency)` for `i = 0, c, 2c, ...`. -/
def chunkList {α : Type} (c : Nat) (xs : List α) : List (List α) :=
  if c = 0 then [] else chunkGo c xs.length xs

/-- One element of `processBatch`'s result: `{ item, result, error }` with
`result` non-null exactly on a fulfilled settlement. -/
structure BatchEntry where
  item : Pod
  result : Option NodeStats
  error : Option PrpcFailure
deriving DecidableEq, Repr

/-- How one settled promise becomes a result entry (`collector.ts` lines
130-141): fulfilled gives `{item, result: value, error: null}`, rejected
gives `{item, result: null, error: reason}`. -/
def settleEntry (outcome : Pod → Except PrpcFailure NodeStats) (pod : Pod) :
    BatchEntry :=
  match outcome pod with
  | .ok v => ⟨pod, some v, none⟩
  | .error e => ⟨pod, none, some e⟩

/-- Model of `processBatch` (`collector.ts` lines 119-145), instantiated at the
types the collector uses (`T = Pod`, `R = NodeStats`): settle every call of
a chunk, append the chunk's entries to the accumulated results, then move
to the next chunk. -/
def processBatch (items : List Pod)
    (outcome : Pod → Except PrpcFailure NodeStats) (concurrency : Nat) :
    List BatchEntry :=
  (chunkList concurrency items).foldl
    (fun results batch => results ++ batch.map (settleEntry outcome)) []

/-! ### Concurrency trace model for the batch scheduler

Each batch launches all its calls, then every call settles before the next
batch starts (`await Promise.allSettled` per chunk).  The event trace of
that schedule and its in-flight counter. -/

/-- A telemetry call being launched or settling. -/
inductive Event where
  | launch
  | settle
deriving DecidableEq, Repr

/-- In-flight counter step: state is (current in-flight, observed max). -/
def stepInFlight (s : Nat × Nat) (e : Event) : Nat × Nat :=
  match e with
  | .launch => (s.1 + 1, max s.2 (s.1 + 1))
  | .settle => (s.1 - 1, s.2)

/-- The events of one batch: all launches, then all settlements. -/
def batchEvents (b : List Pod) : List Event :=
  b.map (fun _ => Event.launch) ++ b.map (fun _ => Event.settle)

/-- The full trace of the blocking-batch scheduler: batches strictly in
sequence. -/
def scheduleEvents (batches : List (List Pod)) : List Event :=
  (batches.map batchEvents).flatten

/-- Largest simultaneous in-flight call count over a trace. -/
def maxInFlight (events : List Event) : Nat :=
  (events.foldl stepInFlight (0, 0)).2

/-! ### Phase 1: discovery and merge (`collector.ts` lines 168-217) -/

/-- Model of `result.reason?.message || "Unknown error"` (`collector.ts` line 201):
a falsy (empty) message falls back to "Unknown error". -/
def reasonMessage (e : PrpcFailure) : String :=
  if e.errMessage = "" then "Unknown error" else e.errMessage

/-- The seed-processing loop (`collector.ts` lines 178-211): a fulfilled
seed's pods are merged into the pod map; a rejected seed contributes one
`seed_unreachable` error.  `seedOutcome ip` is the settled outcome of
`new PrpcClient(ip).getPods()` for that seed. -/
def processSeedResults (seeds : List String)
    (seedOutcome : String → Except PrpcFailure PodsResponse) :
    List (String × Pod) × List CollectionError :=
  seeds.foldl
    (fun acc ip =>
      match seedOutcome ip with
      | .ok resp => (mergePods acc.1 resp.pods, acc.2)
      | .error e =>
          (acc.1,
           acc.2 ++ [⟨.seed_unreachable, ip, reasonMessage e⟩]))
    ([], [])

/-! ### Phase 2: telemetry enrichment (`collector.ts` lines 219-278) -/

/-- The enriched node built for one settled stats entry (`collector.ts`
lines 238-267): with stats, attach them, `ram_percent` when
`ram_total > 0`, formatted uptime; without stats, `stats = null` and an
`online` classification is downgraded to `degraded`. -/
def enrichEntry (now : Int) (e : BatchEntry) : NodeWithStats :=
  let status := determineNodeStatus now e.item.last_seen_timestamp
  match e.result with
  | some stats =>
      { pubkey := e.item.pubkey
        address := e.item.address
        version := e.item.version
        last_seen_timestamp := e.item.last_seen_timestamp
        uptime := e.item.uptime
        storage_used := e.item.storage_used
        stats := some stats
        status := status
        ram_percent :=
          if stats.ram_total > 0 then
            some ((stats.ram_used : Rat) / (stats.ram_total : Rat) * 100)
          else none
        uptime_formatted := some (formatUptime stats.uptime)
        credits := none }
  | none =>
      { pubkey := e.item.pubkey
        address := e.item.address
        version := e.item.version
        last_seen_timestamp := e.item.last_seen_timestamp
        uptime := e.item.uptime
        storage_used := e.item.storage_used
        stats := none
        status := if status = .online then .degraded else status
        ram_percent := none
        uptime_formatted := none
        credits := none }

/-- The error entries one settled stats entry pushes (`collector.ts` lines
255-261): only a failure that is neither a timeout nor a network error
yields a `stats_unreachable` entry, targeted at the pubkey truncated to 8
characters. -/
def entryErrors (e : BatchEntry) : List CollectionError :=
  match e.result, e.error with
  | none, some err =>
      if !(isTimeoutError err) && !(isNetworkError err) then
        [⟨.stats_unreachable, e.item.pubkey.take 8, err.errMessage⟩]
      else []
  | _, _ => []

/-- The enrichment loop (`collector.ts` lines 238-268), threading the node
list, the pushed errors, and `statsSuccessCount`. -/
def enrichLoop (now : Int) (entries : List BatchEntry) :
    List NodeWithStats × List CollectionError × Nat :=
  entries.foldl
    (fun acc e =>
      match e.result with
      | some _ => (acc.1 ++ [enrichEntry now e], acc.2.1, acc.2.2 + 1)
      | none =>
          (acc.1 ++ [enrichEntry now e], acc.2.1 ++ entryErrors e, acc.2.2))
    ([], [], 0)

/-- The no-stats branch (`collector.ts` lines 271-277): `stats = null`,
status from the timestamp (no downgrade). -/
def plainNode (now : Int) (pod : Pod) : NodeWithStats :=
  { pubkey := pod.pubkey
    address := pod.address
    version := pod.version
    last_seen_timestamp := pod.last_seen_timestamp
    uptime := pod.uptime
    storage_used := pod.storage_used
    stats := none
    status := determineNodeStatus now pod.last_seen_timestamp
    ram_percent := none
    uptime_formatted := none
    credits := none }

/-! ### Phase 3: credits (`collector.ts` lines 47-88 and 281-310) -/

/-- Model of `fetchPodsCredits` (`collector.ts` lines 47-88).  Every failure
(non-2xx status, abort on the 10s/`timeout` budget, JSON parse failure) is
caught inside the function and yields the empty map, as does a body whose
`pods_credits` is missing or not an array.  The environment outcome is
`.ok entries` exactly when the fetch, the status check and the parse all
succeeded with `pods_credits` an array of `{pod_id, credits}` entries (in
response order); otherwise `.error message`. -/
def fetchPodsCredits (outcome : Except String (List (String × Int))) :
    List (String × Int) :=
  match outcome with
  | .ok entries => entries
  | .error _ => []

/-- Model of `creditsMap.get(pubkey)` after `creditsMap.set(pod_id, credits)` over
the entries in order: the last entry for a key wins. -/
def creditsGet (m : List (String × Int)) (k : String) : Option Int :=
  m.foldl (fun acc p => if p.1 = k then some p.2 else acc) none

/-- The credits merge loop (`collector.ts` lines 290-297): set `credits`
only on nodes whose pubkey has an entry in the credits map. -/
def mergeCredits (creditsMap : List (String × Int))
    (nodes : List NodeWithStats) : List NodeWithStats :=
  nodes.map fun n =>
    match creditsGet creditsMap n.pubkey with
    | some c => { n with credits := some c }
    | none => n

/-! ### The orchestrator (`collector.ts` lines 155-328) -/

/-- Model of `collectNetworkSnapshot` (`collector.ts` lines 155-328) as a pure
function of the settled outcomes of its network calls.  `now` is
`Date.now()/1000` at status-classification time; `durationMs` and
`collectedAt` stand for the wall-clock metadata of lines 312 and 326. -/
def collectNetworkSnapshot (cfg : CollectorConfig) (now : Int)
    (seedOutcome : String → Except PrpcFailure PodsResponse)
    (statsOutcome : Pod → Except PrpcFailure NodeStats)
    (creditsOutcome : Except String (List (String × Int)))
    (durationMs : Int) (collectedAt : String) : CollectionResult :=
  let phase1 := processSeedResults cfg.seeds seedOutcome
  let podMap := phase1.1
  let seedErrors := phase1.2
  let pods := podMap.map Prod.snd
  let phase2 :=
    if cfg.fetchStats ∧ pods ≠ [] then
      enrichLoop now (processBatch pods statsOutcome cfg.concurrency)
    else
      (pods.map (plainNode now), [], 0)
  let nodes :=
    if cfg.fetchCredits then
      mergeCredits (fetchPodsCredits creditsOutcome) phase2.1
    else phase2.1
  { nodes := nodes
    total_discovered := podMap.length
    total_with_stats := phase2.2.2
    errors := seedErrors ++ phase2.2.1
    duration_ms := durationMs
    collected_at := collectedAt }

/-! ### Protocol client error classification (`client.ts`, `http-client.ts`) -/

/-- A JavaScript `Error` value as the catch clause sees it: its `name` and
`message`. -/
structure JsError where
  name : String
  message : String
deriving DecidableEq, Repr

/-- What `PrpcClient.call`'s catch clause can receive: one of its own typed
`PrpcError` throws, or any other JavaScript `Error`. -/
inductive Caught where
  | prpc (e : PrpcFailure)
  | js (e : JsError)
deriving DecidableEq, Repr

/-- The `name` of the thrown value. -/
def Caught.thrownName : Caught → String
  | .prpc e => e.errName
  | .js e => e.name

/-- The catch clause of `PrpcClient.call` (`client.ts` lines 144-154): a
thrown `Error` named "AbortError" becomes `TimeoutError(timeout, baseUrl)`;
a `PrpcError` is rethrown as-is; any other `Error` becomes a
`NetworkError` of its message. -/
def classifyCatch (timeoutMs : Int) (baseUrl : String) (c : Caught) :
    PrpcFailure :=
  if c.thrownName = "AbortError" then .timeoutError timeoutMs baseUrl
  else
    match c with
    | .prpc e => e
    | .js e => .networkError e.message

/-- What the browser-side transport (`http-client.ts` fetch branch) throws
when the timeout fires: an aborted `fetch` rejects with a `DOMException`
whose `name` is "AbortError" (its message text is environment-dependent). -/
def browserTimeoutThrown (message : String) : Caught :=
  .js ⟨"AbortError", message⟩

/-- What the server-side transport throws when the timeout fires
(`nodeHttpPost`, `http-client.ts` lines 76-89): the abort listener destroys
the request and rejects with `new Error("Request aborted")` — a plain
`Error`, whose `name` is "Error". -/
def nodeTimeoutThrown : Caught :=
  .js ⟨"Error", "Request aborted"⟩

/-! ### Response schemas (`src/lib/prpc/schemas.ts`)

JSON values with numbers modelled as `Int` (no claim depends on fractional
payloads).  Zod's object parser is modelled field by field; where zod would
aggregate issues across several bad fields, the model reports the first bad
field's issue — success/failure and the filtering behaviour are unchanged. -/

/-- A JSON value. -/
inductive Json where
  | null
  | bool (b : Bool)
  | num (n : Int)
  | str (s : String)
  | arr (elems : List Json)
  | obj (fields : List (String × Json))
deriving Repr

/-- Object field lookup (first occurrence). -/
def jGet (fields : List (String × Json)) (k : String) : Option Json :=
  match fields with
  | [] => none
  | (k', v) :: rest => if k' = k then some v else jGet rest k

/-- Model of `z.string().optional()`: absent is fine, present must be a string. -/
def parseOptString : Option Json → Option (Option String)
  | none => some none
  | some (.str s) => some (some s)
  | some _ => none

/-- Model of `z.number().optional()`: absent is fine, present must be a number. -/
def parseOptNum : Option Json → Option (Option Int)
  | none => some none
  | some (.num n) => some (some n)
  | some _ => none

/-- Model of `PodSchema.safeParse` (`schemas.ts` lines 216-223): an object with a
string `pubkey` of length 32-64, a string `address`, a numeric
`last_seen_timestamp`, and optional `version` / `uptime` / `storage_used`. -/
def parsePod (j : Json) : Option Pod :=
  match j with
  | .obj fields =>
    match jGet fields "pubkey" with
    | some (.str pk) =>
      if 32 ≤ pk.length ∧ pk.length ≤ 64 then
        match jGet fields "address" with
        | some (.str addr) =>
          match jGet fields "last_seen_timestamp" with
          | some (.num ts) =>
            match parseOptString (jGet fields "version"),
                parseOptNum (jGet fields "uptime"),
                parseOptNum (jGet fields "storage_used") with
            | some v, some u, some su => some ⟨pk, addr, v, ts, u, su⟩
            | _, _, _ => none
          | _ => none
        | _ => none
      else none
    | _ => none
  | _ => none

/-- Model of `PodsResponseSchema` (`schemas.ts` lines 240-248): `pods` must be an
array of anything, then is *transformed* by keeping exactly the entries
that `PodSchema` accepts; `total_count` must be a non-negative integer
number.  Only the top-level shape can fail. -/
def parsePodsResponse (j : Json) : Except (List Issue) PodsResponse :=
  match j with
  | .obj fields =>
    match jGet fields "pods" with
    | some (.arr elems) =>
      (match jGet fields "total_count" with
       | some (.num n) =>
          if n ≥ 0 then .ok ⟨elems.filterMap parsePod, n⟩
          else
            .error
              [⟨"total_count", "Number must be greater than or equal to 0"⟩]
       | some _ => .error [⟨"total_count", "Expected number"⟩]
       | none => .error [⟨"total_count", "Required"⟩])
    | some _ => .error [⟨"pods", "Expected array"⟩]
    | none => .error [⟨"pods", "Required"⟩]
  | _ => .error [⟨"", "Expected object"⟩]

/-- The result-validation step of `PrpcClient.call` (`client.ts` lines
126-141) for the get-pods method: a payload the schema rejects becomes a
thrown `ValidationError("Response validation failed", issues)`. -/
def validatePodsResult (result : Json) : Except PrpcFailure PodsResponse :=
  match parsePodsResponse result with
  | .ok r => .ok r
  | .error issues =>
      .error (.validationError "Response validation failed" issues)

/-! ### Specification-side helper definitions -/

/-- The per-pubkey conflict-resolution step realised by the merge: keep the
incumbent unless the challenger's timestamp is strictly greater. -/
def stepWinner (o : Option Pod) (p : Pod) : Option Pod :=
  match o with
  | none => some p
  | some e =>
      if p.last_seen_timestamp > e.last_seen_timestamp then some p else some e

/-- Well-formedness of the pod map: pairwise-distinct keys, and every
record is stored under its own pubkey. -/
def KeysOk (m : List (String × Pod)) : Prop :=
  (m.map Prod.fst).Nodup ∧ ∀ p ∈ m, p.2.pubkey = p.1

/-- The `seed_unreachable` entry a failed seed contributes. -/
def seedErrOf (seedOutcome : String → Except PrpcFailure PodsResponse)
    (ip : String) : Option CollectionError :=
  match seedOutcome ip with
  | .ok _ => none
  | .error e => some ⟨.seed_unreachable, ip, reasonMessage e⟩

/-- The `stats_unreachable` entry a failed telemetry call contributes (none
for timeouts and network errors). -/
def statErrOf (statsOutcome : Pod → Except PrpcFailure NodeStats)
    (pod : Pod) : Option CollectionError :=
  match statsOutcome pod with
  | .ok _ => none
  | .error e =>
      if !(isTimeoutError e) && !(isNetworkError e) then
        some ⟨.stats_unreachable, pod.pubkey.take 8, e.errMessage⟩
      else none

/-- All pods delivered by the succeeding seeds, in discovery order (a
failed seed contributes no pods). -/
def discoveredPods (seedOutcome : String → Except PrpcFailure PodsResponse)
    (seeds : List String) : List Pod :=
  seeds.flatMap fun ip =>
    match seedOutcome ip with
    | .ok r => r.pods
    | .error _ => []

/-- The pod map produced by Phase 1 for a given seed list and outcome
environment. -/
def podMapOf (seedOutcome : String → Except PrpcFailure PodsResponse)
    (seeds : List String) : List (String × Pod) :=
  mergePods [] (discoveredPods seedOutcome seeds)

/-! ### Concrete inputs used by witnesses and counterexamples -/

/-- A pod as a witness input. -/
def podA : Pod :=
  ⟨"aaaaaaaaaaaaaaaaaaaaaaaaaaaaaaaa", "10.0.0.1:6000", none, 1000, none,
   none⟩

/-- A second report for `podA`'s pubkey with a greater timestamp. -/
def podA2 : Pod :=
  ⟨"aaaaaaaaaaaaaaaaaaaaaaaaaaaaaaaa", "10.0.0.2:6000", some "1.2", 1500,
   none, none⟩

/-- A report sharing `podA`'s pubkey and timestamp but a different
address. -/
def podATie : Pod :=
  ⟨"aaaaaaaaaaaaaaaaaaaaaaaaaaaaaaaa", "10.0.0.9:6000", none, 1000, none,
   none⟩

/-- A pod under a different pubkey. -/
def podB : Pod :=
  ⟨"bbbbbbbbbbbbbbbbbbbbbbbbbbbbbbbb", "10.0.0.3:6000", none, 1400, none,
   none⟩

/-- A stats record as a witness input. -/
def statsA : NodeStats :=
  ⟨1, 50, 0, 0, 1000, 10, 10, 100, 40, 0, 0, 3600⟩

/-- A single-seed configuration used by witnesses. -/
def cfgW : CollectorConfig :=
  { seeds := ["10.9.9.9"] }

/-- A two-seed configuration used by witnesses. -/
def cfgW2 : CollectorConfig :=
  { seeds := ["10.9.9.1", "10.9.9.2"] }

/-- Witness seed environment: the first seed answers with `podA`, the
second is unreachable. -/
def soW : String → Except PrpcFailure PodsResponse := fun ip =>
  if ip = "10.9.9.1" then .ok ⟨[podA], 1⟩
  else .error (.networkError "ECONNREFUSED")

/-- Witness seed environment: every seed answers with `podA`. -/
def soOkA : String → Except PrpcFailure PodsResponse :=
  fun _ => .ok ⟨[podA], 1⟩

/-- Witness telemetry environment: every call fails with an RPC error. -/
def stoFail : Pod → Except PrpcFailure NodeStats :=
  fun _ => .error (.rpcError "Method not found" (-32601))

/-- Witness telemetry environment: every call times out. -/
def stoTimeout : Pod → Except PrpcFailure NodeStats :=
  fun _ => .error (.timeoutError 8000 "http://10.0.0.1:6000/rpc")

/-- Witness telemetry environment: every call succeeds with `statsA`. -/
def stoOk : Pod → Except PrpcFailure NodeStats := fun _ => .ok statsA

/-- A well-formed pod entry in wire form. -/
def goodPodJson : Json :=
  .obj
    [("pubkey", .str "aaaaaaaaaaaaaaaaaaaaaaaaaaaaaaaa"),
     ("address", .str "10.0.0.1:6000"),
     ("last_seen_timestamp", .num 1000)]

/-- A malformed pod entry in wire form: its pubkey is too short for
`PodSchema`. -/
def badPodJson : Json :=
  .obj
    [("pubkey", .str "short"),
     ("address", .str "10.0.0.7:6000"),
     ("last_seen_timestamp", .num 1001)]

/-- A get-pods result payload containing one well-formed and one malformed
peer entry. -/
def mixedPodsJson : Json :=
  .obj [("pods", .arr [goodPodJson, badPodJson]), ("total_count", .num 2)]

/-! ## Lemmas about the pod map and the merge -/

theorem mapGet_mapSet_self (m : List (String × Pod)) (k : String)
    (v : Pod) : mapGet (mapSet m k v) k = some v := by
  induction m with
  | nil => simp [mapSet, mapGet]
  | cons p rest ih =>
    obtain ⟨k', v'⟩ := p
    by_cases h : k' = k
    · subst h; simp [mapSet, mapGet]
    · simp [mapSet, mapGet, h, ih]

theorem mapGet_mapSet_ne (m : List (String × Pod)) (k j : String) (v : Pod)
    (h : ¬ k = j) : mapGet (mapSet m k v) j = mapGet m j := by
  induction m with
  | nil => simp [mapSet, mapGet, h]
  | cons p rest ih =>
    obtain ⟨k', v'⟩ := p
    by_cases hk : k' = k
    · subst hk; simp [mapSet, mapGet, h]
    · by_cases hj : k' = j
      · subst hj; simp [mapSet, mapGet, hk]
      · simp [mapSet, mapGet, hk, hj, ih]

theorem mapGet_mergePod (m : List (String × Pod)) (p : Pod) (k : String) :
    mapGet (mergePod m p) k =
      if p.pubkey = k then stepWinner (mapGet m k) p else mapGet m k := by
  by_cases hk : p.pubkey = k
  · subst hk
    cases hg : mapGet m p.pubkey with
    | none => simp [mergePod, stepWinner, hg, mapGet_mapSet_self]
    | some e =>
      by_cases ht : p.last_seen_timestamp > e.last_seen_timestamp
      · simp [mergePod, stepWinner, hg, ht, mapGet_mapSet_self]
      · simp [mergePod, stepWinner, hg, ht]
  · cases hg : mapGet m p.pubkey with
    | none => simp [mergePod, hg, hk, mapGet_mapSet_ne m p.pubkey k p hk]
    | some e =>
      by_cases ht : p.last_seen_timestamp > e.last_seen_timestamp
      · simp [mergePod, hg, ht, hk, mapGet_mapSet_ne m p.pubkey k p hk]
      · simp [mergePod, hg, ht, hk]

theorem mapGet_mergePods (pods : List Pod) (m : List (String × Pod))
    (k : String) :
    mapGet (mergePods m pods) k =
      (pods.filter (fun p => p.pubkey == k)).foldl stepWinner
        (mapGet m k) := by
  induction pods generalizing m with
  | nil => simp [mergePods]
  | cons p rest ih =>
    have hstep : mergePods m (p :: rest) = mergePods (mergePod m p) rest :=
      rfl
    rw [hstep, ih]
    by_cases hk : p.pubkey = k
    · simp [List.filter_cons, hk, mapGet_mergePod]
    · simp [List.filter_cons, hk, mapGet_mergePod]

theorem stepWinner_some (o : Option Pod) (p : Pod) :
    ∃ w, stepWinner o p = some w ∧
      p.last_seen_timestamp ≤ w.last_seen_timestamp ∧
      (∀ e, o = some e →
        e.last_seen_timestamp ≤ w.last_seen_timestamp) ∧
      (w = p ∨ o = some w) := by
  cases o with
  | none => exact ⟨p, rfl, le_refl _, by simp, Or.inl rfl⟩
  | some e =>
    by_cases ht : p.last_seen_timestamp > e.last_seen_timestamp
    · refine ⟨p, by simp [stepWinner, ht], le_refl _, ?_, Or.inl rfl⟩
      intro e' he'
      injection he' with he'
      subst he'
      omega
    · refine ⟨e, by simp [stepWinner, ht], by omega, ?_, Or.inr rfl⟩
      intro e' he'
      injection he' with he'
      subst he'
      exact le_refl _

theorem foldl_stepWinner_spec (l : List Pod) :
    ∀ o r, l.foldl stepWinner o = some r →
      (r ∈ l ∨ o = some r) ∧
      (∀ q ∈ l, q.last_seen_timestamp ≤ r.last_seen_timestamp) ∧
      (∀ e, o = some e →
        e.last_seen_timestamp ≤ r.last_seen_timestamp) := by
  induction l with
  | nil =>
    intro o r h
    simp only [List.foldl_nil] at h
    refine ⟨Or.inr h, by simp, ?_⟩
    intro e he
    rw [h] at he
    injection he with he
    subst he
    exact le_refl _
  | cons p rest ih =>
    intro o r h
    simp only [List.foldl_cons] at h
    obtain ⟨w, hw, hpw, how, hwp⟩ := stepWinner_some o p
    rw [hw] at h
    obtain ⟨hmem, hall, hwr⟩ := ih (some w) r h
    have hwr' : w.last_seen_timestamp ≤ r.last_seen_timestamp := hwr w rfl
    refine ⟨?_, ?_, ?_⟩
    · rcases hmem with hm | hm
      · exact Or.inl (List.mem_cons_of_mem _ hm)
      · injection hm with hm
        subst hm
        rcases hwp with hp | ho
        · exact Or.inl (hp ▸ List.mem_cons_self _ _)
        · exact Or.inr ho
    · intro q hq
      rcases List.mem_cons.mp hq with rfl | hq
      · exact le_trans hpw hwr'
      · exact hall q hq
    · intro e he
      exact le_trans (how e he) hwr'

theorem foldl_stepWinner_isSome (l : List Pod) :
    ∀ (e : Pod), ∃ r, l.foldl stepWinner (some e) = some r := by
  induction l with
  | nil => intro e; exact ⟨e, rfl⟩
  | cons p rest ih =>
    intro e
    simp only [List.foldl_cons]
    obtain ⟨w, hw, _, _, _⟩ := stepWinner_some (some e) p
    rw [hw]
    exact ih w

theorem foldl_stepWinner_none_isSome (l : List Pod) (hl : l ≠ []) :
    ∃ r, l.foldl stepWinner none = some r := by
  cases l with
  | nil => exact absurd rfl hl
  | cons p rest =>
    simp only [List.foldl_cons, stepWinner]
    exact foldl_stepWinner_isSome rest p

theorem mapGet_eq_none_iff (m : List (String × Pod)) (k : String) :
    mapGet m k = none ↔ k ∉ m.map Prod.fst := by
  induction m with
  | nil => simp [mapGet]
  | cons p rest ih =>
    obtain ⟨k', v'⟩ := p
    by_cases h : k' = k
    · subst h; simp [mapGet]
    · simp [mapGet, h, ih, Ne.symm h]

theorem mem_mapSet (m : List (String × Pod)) (k : String) (v : Pod)
    (p : String × Pod) (hp : p ∈ mapSet m k v) : p = (k, v) ∨ p ∈ m := by
  induction m with
  | nil => simpa [mapSet] using hp
  | cons q rest ih =>
    obtain ⟨k', v'⟩ := q
    by_cases h : k' = k
    · subst h
      simp only [mapSet, if_pos rfl] at hp
      rcases List.mem_cons.mp hp with rfl | hp
      · exact Or.inl rfl
      · exact Or.inr (List.mem_cons_of_mem _ hp)
    · simp only [mapSet, if_neg h] at hp
      rcases List.mem_cons.mp hp with rfl | hp
      · exact Or.inr (List.mem_cons_self _ _)
      · rcases ih hp with h' | h'
        · exact Or.inl h'
        · exact Or.inr (List.mem_cons_of_mem _ h')

theorem keys_mapSet_mem (m : List (String × Pod)) (k : String) (v : Pod)
    (h : ¬ mapGet m k = none) :
    (mapSet m k v).map Prod.fst = m.map Prod.fst := by
  induction m with
  | nil => exact absurd rfl h
  | cons q rest ih =>
    obtain ⟨k', v'⟩ := q
    by_cases hk : k' = k
    · subst hk; simp [mapSet]
    · simp only [mapGet, if_neg hk] at h
      simp [mapSet, hk, ih h]

theorem keys_mapSet_new (m : List (String × Pod)) (k : String) (v : Pod)
    (h : mapGet m k = none) :
    (mapSet m k v).map Prod.fst = m.map Prod.fst ++ [k] := by
  induction m with
  | nil => simp [mapSet]
  | cons q rest ih =>
    obtain ⟨k', v'⟩ := q
    by_cases hk : k' = k
    · subst hk; simp [mapGet] at h
    · simp only [mapGet, if_neg hk] at h
      simp [mapSet, hk, ih h]

theorem keysOk_mapSet (m : List (String × Pod)) (k : String) (v : Pod)
    (h : KeysOk m) (hv : v.pubkey = k) : KeysOk (mapSet m k v) := by
  refine ⟨?_, ?_⟩
  · cases hg : mapGet m k with
    | none =>
      rw [keys_mapSet_new m k v hg]
      rw [List.nodup_append]
      exact ⟨h.1, List.nodup_singleton _,
        by simpa using fun hk => (mapGet_eq_none_iff m k).mp hg hk⟩
    | some e =>
      rw [keys_mapSet_mem m k v (by simp [hg])]
      exact h.1
  · intro p hp
    rcases mem_mapSet m k v p hp with rfl | hp
    · exact hv
    · exact h.2 p hp

theorem keysOk_mergePod (m : List (String × Pod)) (p : Pod)
    (h : KeysOk m) : KeysOk (mergePod m p) := by
  unfold mergePod
  cases hg : mapGet m p.pubkey with
  | none => exact keysOk_mapSet m p.pubkey p h rfl
  | some e =>
    by_cases ht : p.last_seen_timestamp > e.last_seen_timestamp
    · simpa [ht] using keysOk_mapSet m p.pubkey p h rfl
    · simpa [ht] using h

theorem keysOk_mergePods (pods : List Pod) (m : List (String × Pod))
    (h : KeysOk m) : KeysOk (mergePods m pods) := by
  induction pods generalizing m with
  | nil => exact h
  | cons p rest ih => exact ih (mergePod m p) (keysOk_mergePod m p h)

theorem processSeedResults_go
    (seedOutcome : String → Except PrpcFailure PodsResponse)
    (seeds : List String) :
    ∀ acc : List (String × Pod) × List CollectionError,
      seeds.foldl
        (fun acc ip =>
          match seedOutcome ip with
          | .ok resp => (mergePods acc.1 resp.pods, acc.2)
          | .error e =>
              (acc.1,
               acc.2 ++ [⟨.seed_unreachable, ip, reasonMessage e⟩])) acc =
        (mergePods acc.1 (discoveredPods seedOutcome seeds),
         acc.2 ++ seeds.filterMap (seedErrOf seedOutcome)) := by
  induction seeds with
  | nil => intro acc; simp [discoveredPods, mergePods]
  | cons ip rest ih =>
    intro acc
    simp only [List.foldl_cons]
    cases hout : seedOutcome ip with
    | ok resp =>
      rw [ih]
      dsimp only
      have hd : discoveredPods seedOutcome (ip :: rest) =
          resp.pods ++ discoveredPods seedOutcome rest := by
        simp [discoveredPods, hout]
      have he : List.filterMap (seedErrOf seedOutcome) (ip :: rest) =
          List.filterMap (seedErrOf seedOutcome) rest := by
        simp [List.filterMap_cons, seedErrOf, hout]
      rw [hd, he, Prod.mk.injEq]
      exact ⟨by simp [mergePods, List.foldl_append], rfl⟩
    | error e =>
      rw [ih]
      dsimp only
      have hd : discoveredPods seedOutcome (ip :: rest) =
          discoveredPods seedOutcome rest := by
        simp [discoveredPods, hout]
      have he : List.filterMap (seedErrOf seedOutcome) (ip :: rest) =
          ⟨.seed_unreachable, ip, reasonMessage e⟩ ::
            List.filterMap (seedErrOf seedOutcome) rest := by
        simp [List.filterMap_cons, seedErrOf, hout]
      rw [hd, he]
      simp

theorem processSeedResults_eq
    (seeds : List String)
    (seedOutcome : String → Except PrpcFailure PodsResponse) :
    processSeedResults seeds seedOutcome =
      (mergePods [] (discoveredPods seedOutcome seeds),
       seeds.filterMap (seedErrOf seedOutcome)) := by
  unfold processSeedResults
  rw [processSeedResults_go seedOutcome seeds ([], [])]
  simp

/-! ## Lemmas about batching and the in-flight counter -/

theorem chunkGo_flatten {α : Type} (c : Nat) (hc : 0 < c) :
    ∀ (fuel : Nat) (xs : List α), xs.length ≤ fuel →
      (chunkGo c fuel xs).flatten = xs := by
  intro fuel
  induction fuel with
  | zero =>
    intro xs h
    cases xs with
    | nil => simp [chunkGo]
    | cons x t => simp at h
  | succ n ih =>
    intro xs h
    cases xs with
    | nil => simp [chunkGo]
    | cons x t =>
      simp only [chunkGo, List.flatten_cons]
      have hlen : ((x :: t).drop c).length ≤ n := by
        simp only [List.length_drop, List.length_cons]
        simp only [List.length_cons] at h
        omega
      rw [ih ((x :: t).drop c) hlen]
      exact List.take_append_drop c (x :: t)

theorem chunkGo_length_le {α : Type} (c : Nat) :
    ∀ (fuel : Nat) (xs : List α) (b : List α),
      b ∈ chunkGo c fuel xs → b.length ≤ c := by
  intro fuel
  induction fuel with
  | zero =>
    intro xs b hb
    cases xs <;> simp [chunkGo] at hb
  | succ n ih =>
    intro xs b hb
    cases xs with
    | nil => simp [chunkGo] at hb
    | cons x t =>
      simp only [chunkGo] at hb
      rcases List.mem_cons.mp hb with rfl | hb
      · exact List.length_take_le c (x :: t)
      · exact ih _ b hb

theorem chunkList_flatten {α : Type} (c : Nat) (hc : 0 < c)
    (xs : List α) : (chunkList c xs).flatten = xs := by
  unfold chunkList
  rw [if_neg (by omega)]
  exact chunkGo_flatten c hc xs.length xs (le_refl _)

theorem chunkList_length_le {α : Type} (c : Nat) (xs : List α)
    (b : List α) (hb : b ∈ chunkList c xs) : b.length ≤ c := by
  unfold chunkList at hb
  by_cases h : c = 0
  · rw [if_pos h] at hb
    simp at hb
  · rw [if_neg h] at hb
    exact chunkGo_length_le c xs.length xs b hb

theorem foldl_append_map (g : Pod → BatchEntry) :
    ∀ (bs : List (List Pod)) (acc : List BatchEntry),
      bs.foldl (fun r b => r ++ b.map g) acc =
        acc ++ bs.flatten.map g := by
  intro bs
  induction bs with
  | nil => intro acc; simp
  | cons b rest ih =>
    intro acc
    simp only [List.foldl_cons, List.flatten_cons]
    rw [ih]
    simp

theorem processBatch_eq (items : List Pod)
    (outcome : Pod → Except PrpcFailure NodeStats) (c : Nat)
    (hc : 0 < c) :
    processBatch items outcome c = items.map (settleEntry outcome) := by
  unfold processBatch
  rw [foldl_append_map (settleEntry outcome) (chunkList c items) []]
  rw [chunkList_flatten c hc items]
  simp

theorem enrichLoop_eq (now : Int) (entries : List BatchEntry) :
    enrichLoop now entries =
      (entries.map (enrichEntry now),
       entries.flatMap entryErrors,
       entries.countP (fun e => e.result.isSome)) := by
  suffices h : ∀ acc : List NodeWithStats × List CollectionError × Nat,
      entries.foldl
        (fun acc e =>
          match e.result with
          | some _ => (acc.1 ++ [enrichEntry now e], acc.2.1, acc.2.2 + 1)
          | none =>
              (acc.1 ++ [enrichEntry now e], acc.2.1 ++ entryErrors e,
               acc.2.2)) acc =
        (acc.1 ++ entries.map (enrichEntry now),
         acc.2.1 ++ entries.flatMap entryErrors,
         acc.2.2 + entries.countP (fun e => e.result.isSome)) by
    unfold enrichLoop
    rw [h ([], [], 0)]
    simp
  induction entries with
  | nil => intro acc; simp
  | cons e rest ih =>
    intro acc
    simp only [List.foldl_cons]
    cases hr : e.result with
    | some s =>
      rw [ih]
      dsimp only
      have herr : entryErrors e = [] := by
        unfold entryErrors
        rw [hr]
      simp [List.countP_cons, hr, herr]
      omega
    | none =>
      rw [ih]
      dsimp only
      simp [List.countP_cons, hr]

theorem foldl_launches (b : List Pod) :
    ∀ cur mx, cur ≤ mx →
      (b.map fun _ => Event.launch).foldl stepInFlight (cur, mx) =
        (cur + b.length, max mx (cur + b.length)) := by
  induction b with
  | nil =>
    intro cur mx h
    simp [Nat.max_eq_left h]
  | cons p rest ih =>
    intro cur mx h
    simp only [List.map_cons, List.foldl_cons, stepInFlight]
    rw [ih (cur + 1) (max mx (cur + 1)) (le_max_right _ _)]
    simp only [List.length_cons, Prod.mk.injEq]
    constructor
    · omega
    · omega

theorem foldl_settles (b : List Pod) :
    ∀ cur mx,
      (b.map fun _ => Event.settle).foldl stepInFlight (cur, mx) =
        (cur - b.length, mx) := by
  induction b with
  | nil => intro cur mx; simp
  | cons p rest ih =>
    intro cur mx
    simp only [List.map_cons, List.foldl_cons, stepInFlight]
    rw [ih (cur - 1) mx]
    simp only [List.length_cons, Prod.mk.injEq]
    exact ⟨by omega, trivial⟩

theorem foldl_batchEvents (b : List Pod) (mx : Nat) :
    (batchEvents b).foldl stepInFlight (0, mx) = (0, max mx b.length) := by
  unfold batchEvents
  rw [List.foldl_append, foldl_launches b 0 mx (Nat.zero_le _),
    foldl_settles b]
  simp

theorem scheduleEvents_bound (c : Nat) (batches : List (List Pod)) :
    (∀ b ∈ batches, b.length ≤ c) →
      ∀ mx, mx ≤ c →
        ((scheduleEvents batches).foldl stepInFlight (0, mx)).2 ≤ c := by
  induction batches with
  | nil =>
    intro h mx hmx
    simpa [scheduleEvents] using hmx
  | cons b rest ih =>
    intro h mx hmx
    have hsch : scheduleEvents (b :: rest) =
        batchEvents b ++ scheduleEvents rest := by
      simp [scheduleEvents]
    rw [hsch, List.foldl_append, foldl_batchEvents]
    refine ih (fun b' hb' => h b' (List.mem_cons_of_mem _ hb')) _ ?_
    have := h b (List.mem_cons_self _ _)
    omega

theorem maxInFlight_bound (c : Nat) (batches : List (List Pod))
    (h : ∀ b ∈ batches, b.length ≤ c) :
    maxInFlight (scheduleEvents batches) ≤ c := by
  unfold maxInFlight
  exact scheduleEvents_bound c batches h 0 (Nat.zero_le _)

/-! ## Lemmas about enrichment and the credits merge -/

theorem enrichEntry_fields (now : Int) (e : BatchEntry) :
    (enrichEntry now e).pubkey = e.item.pubkey ∧
    (enrichEntry now e).last_seen_timestamp = e.item.last_seen_timestamp ∧
    (enrichEntry now e).stats = e.result ∧
    (enrichEntry now e).credits = none := by
  obtain ⟨item, result, err⟩ := e
  cases result <;> exact ⟨rfl, rfl, rfl, rfl⟩

theorem settleEntry_item (sto : Pod → Except PrpcFailure NodeStats)
    (pod : Pod) : (settleEntry sto pod).item = pod := by
  unfold settleEntry
  cases sto pod <;> rfl

theorem enrichEntry_none_status (now : Int) (e : BatchEntry)
    (h : e.result = none) :
    (enrichEntry now e).status =
      (if determineNodeStatus now e.item.last_seen_timestamp = .online
       then .degraded
       else determineNodeStatus now e.item.last_seen_timestamp) := by
  obtain ⟨item, result, err⟩ := e
  cases result with
  | none => rfl
  | some s => simp at h

theorem entryErrors_settleEntry
    (sto : Pod → Except PrpcFailure NodeStats) (pod : Pod) :
    entryErrors (settleEntry sto pod) = (statErrOf sto pod).toList := by
  unfold entryErrors settleEntry statErrOf
  cases h : sto pod with
  | ok v => simp
  | error e =>
    by_cases ht : !(isTimeoutError e) && !(isNetworkError e)
    · simp [ht]
    · simp only [Bool.not_eq_true] at ht
      simp [ht]

theorem settle_errors_filterMap
    (sto : Pod → Except PrpcFailure NodeStats) (pods : List Pod) :
    (pods.map (settleEntry sto)).flatMap entryErrors =
      pods.filterMap (statErrOf sto) := by
  induction pods with
  | nil => simp
  | cons p rest ih =>
    simp only [List.map_cons, List.flatMap_cons, List.filterMap_cons]
    rw [ih, entryErrors_settleEntry]
    cases h : statErrOf sto p <;> simp [h]

theorem mergeCredits_exists (cm : List (String × Int))
    (ns : List NodeWithStats) (b : NodeWithStats) (hb : b ∈ ns) :
    ∃ n ∈ mergeCredits cm ns,
      n.pubkey = b.pubkey ∧ n.stats = b.stats ∧ n.status = b.status := by
  unfold mergeCredits
  refine ⟨_, List.mem_map_of_mem _ hb, ?_⟩
  cases h : creditsGet cm b.pubkey <;> simp [h]

theorem mergeCredits_credits (cm : List (String × Int))
    (ns : List NodeWithStats) (h0 : ∀ b ∈ ns, b.credits = none)
    (n : NodeWithStats) (hn : n ∈ mergeCredits cm ns) :
    n.credits = creditsGet cm n.pubkey := by
  unfold mergeCredits at hn
  obtain ⟨b, hb, rfl⟩ := List.mem_map.mp hn
  cases h : creditsGet cm b.pubkey with
  | none => simp [h, h0 b hb]
  | some c => simp [h]

theorem mergeCredits_empty (ns : List NodeWithStats) :
    mergeCredits [] ns = ns := by
  unfold mergeCredits
  have h : ∀ n ∈ ns,
      (match creditsGet [] n.pubkey with
       | some c => { n with credits := some c }
       | none => n) = n := by
    intro n _
    rfl
  rw [List.map_congr_left h, List.map_id']

theorem mergeCredits_pubkey_stats_map (cm : List (String × Int))
    (ns : List NodeWithStats) :
    (mergeCredits cm ns).map (fun n => (n.pubkey, n.stats)) =
      ns.map (fun n => (n.pubkey, n.stats)) := by
  unfold mergeCredits
  rw [List.map_map]
  apply List.map_congr_left
  intro n _
  cases h : creditsGet cm n.pubkey <;> simp [Function.comp, h]

theorem mergeCredits_length (cm : List (String × Int))
    (ns : List NodeWithStats) :
    (mergeCredits cm ns).length = ns.length := by
  unfold mergeCredits
  exact List.length_map _ _

theorem mergeCredits_pubkey_map (cm : List (String × Int))
    (ns : List NodeWithStats) :
    (mergeCredits cm ns).map (fun n => n.pubkey) =
      ns.map (fun n => n.pubkey) := by
  unfold mergeCredits
  rw [List.map_map]
  apply List.map_congr_left
  intro n _
  cases h : creditsGet cm n.pubkey <;> simp [Function.comp, h]

theorem mergeCredits_countP_stats (cm : List (String × Int))
    (ns : List NodeWithStats) :
    (mergeCredits cm ns).countP (fun n => n.stats.isSome) =
      ns.countP (fun n => n.stats.isSome) := by
  unfold mergeCredits
  rw [List.countP_map]
  apply List.countP_congr
  intro n _
  cases h : creditsGet cm n.pubkey <;> simp [Function.comp, h]

theorem mem_mergeCredits_stats (cm : List (String × Int))
    (ns : List NodeWithStats) (n : NodeWithStats)
    (hn : n ∈ mergeCredits cm ns) : ∃ b ∈ ns, n.stats = b.stats := by
  unfold mergeCredits at hn
  obtain ⟨b, hb, rfl⟩ := List.mem_map.mp hn
  refine ⟨b, hb, ?_⟩
  cases h : creditsGet cm b.pubkey <;> simp [h]

theorem keysOk_nil : KeysOk [] := ⟨List.nodup_nil, by simp⟩

/-- Full decomposition of the orchestrator into the phase characterizations
(for a positive concurrency limit, where the batching loop terminates and
covers the pod list exactly once). -/
theorem collect_eq (cfg : CollectorConfig) (now : Int)
    (seedOutcome : String → Except PrpcFailure PodsResponse)
    (statsOutcome : Pod → Except PrpcFailure NodeStats)
    (creditsOutcome : Except String (List (String × Int)))
    (d : Int) (ca : String) (hc : 0 < cfg.concurrency) :
    collectNetworkSnapshot cfg now seedOutcome statsOutcome creditsOutcome
        d ca =
      { nodes :=
          (if cfg.fetchCredits then
            mergeCredits (fetchPodsCredits creditsOutcome)
          else id)
            (if cfg.fetchStats ∧
                (podMapOf seedOutcome cfg.seeds).map Prod.snd ≠ [] then
              ((podMapOf seedOutcome cfg.seeds).map Prod.snd).map
                (fun pod => enrichEntry now (settleEntry statsOutcome pod))
            else
              ((podMapOf seedOutcome cfg.seeds).map Prod.snd).map
                (plainNode now)),
        total_discovered := (podMapOf seedOutcome cfg.seeds).length,
        total_with_stats :=
          if cfg.fetchStats ∧
              (podMapOf seedOutcome cfg.seeds).map Prod.snd ≠ [] then
            ((podMapOf seedOutcome cfg.seeds).map Prod.snd).countP
              (fun pod => (settleEntry statsOutcome pod).result.isSome)
          else 0,
        errors :=
          cfg.seeds.filterMap (seedErrOf seedOutcome) ++
            (if cfg.fetchStats ∧
                (podMapOf seedOutcome cfg.seeds).map Prod.snd ≠ [] then
              ((podMapOf seedOutcome cfg.seeds).map Prod.snd).filterMap
                (statErrOf statsOutcome)
            else []),
        duration_ms := d,
        collected_at := ca } := by
  unfold collectNetworkSnapshot
  rw [processSeedResults_eq]
  dsimp only
  rw [show mergePods [] (discoveredPods seedOutcome cfg.seeds) =
      podMapOf seedOutcome cfg.seeds from rfl]
  by_cases hfs : cfg.fetchStats ∧
      (podMapOf seedOutcome cfg.seeds).map Prod.snd ≠ []
  · rw [if_pos hfs, if_pos hfs, if_pos hfs, if_pos hfs]
    rw [processBatch_eq _ _ _ hc, enrichLoop_eq]
    dsimp only
    rw [List.map_map, settle_errors_filterMap, List.countP_map]
    by_cases hcr : cfg.fetchCredits
    · rw [if_pos hcr, if_pos hcr]
      simp [Function.comp]
      exact ⟨rfl, rfl⟩
    · rw [if_neg hcr, if_neg hcr]
      simp [Function.comp]
      rfl
  · rw [if_neg hfs, if_neg hfs, if_neg hfs, if_neg hfs]
    dsimp only
    by_cases hcr : cfg.fetchCredits
    · rw [if_pos hcr, if_pos hcr]
    · rw [if_neg hcr, if_neg hcr]
      simp

/-! ## Claim theorems -/

/-- C4: for every `now` and `last_seen_timestamp`, `determineNodeStatus` is
the step function of `age = now − last_seen_timestamp` with boundaries
{240, 600, 3600} seconds: `age < 240` gives online, `240 ≤ age < 600`
degraded, `600 ≤ age < 3600` offline, `age ≥ 3600` unknown (in particular
age 4000 gives unknown); and as a function of age it is non-increasing in
the ordering online > degraded > offline > unknown. -/
theorem determineNodeStatus_step_function (now lastSeen : Int) :
    (now - lastSeen < 240 → determineNodeStatus now lastSeen = .online) ∧
    (240 ≤ now - lastSeen → now - lastSeen < 600 →
      determineNodeStatus now lastSeen = .degraded) ∧
    (600 ≤ now - lastSeen → now - lastSeen < 3600 →
      determineNodeStatus now lastSeen = .offline) ∧
    (3600 ≤ now - lastSeen → determineNodeStatus now lastSeen = .unknown) ∧
    determineNodeStatus now (now - 4000) = .unknown ∧
    (∀ now2 lastSeen2 : Int, now - lastSeen ≤ now2 - lastSeen2 →
      statusRank (determineNodeStatus now2 lastSeen2) ≤
        statusRank (determineNodeStatus now lastSeen)) := by
  have hd : ∀ a b : Int, determineNodeStatus a b =
      if a - b < 240 then .online
      else if a - b < 600 then .degraded
      else if a - b < 3600 then .offline
      else .unknown := fun a b => rfl
  refine ⟨?_, ?_, ?_, ?_, ?_, ?_⟩
  · intro h
    rw [hd, if_pos h]
  · intro h1 h2
    rw [hd, if_neg (by omega), if_pos (by omega)]
  · intro h1 h2
    rw [hd, if_neg (by omega), if_neg (by omega), if_pos (by omega)]
  · intro h
    rw [hd, if_neg (by omega), if_neg (by omega), if_neg (by omega)]
  · rw [hd, if_neg (by omega), if_neg (by omega), if_neg (by omega)]
  · intro n2 l2 h
    rw [hd, hd]
    split_ifs <;> (simp only [statusRank]; omega)

/-- Witness for C4 at concrete inputs: age 100 is online, age 4000 is
unknown. -/
theorem determineNodeStatus_step_function_witness :
    determineNodeStatus 1000 900 = .online ∧
    determineNodeStatus 5000 1000 = .unknown :=
  ⟨(determineNodeStatus_step_function 1000 900).1 (by decide),
   (determineNodeStatus_step_function 5000 1000).2.2.2.1 (by decide)⟩

/-- C2: for a pubkey reported by two sources with timestamps `t1 < t2`,
the merged record is exactly the `t2` report (all fields), in either
processing order; in general a record already present is replaced only
when the incoming timestamp is strictly greater, so on a tie the
earlier-processed record is kept. -/
theorem merge_max_wins (p1 p2 : Pod) (hk : p1.pubkey = p2.pubkey)
    (hlt : p1.last_seen_timestamp < p2.last_seen_timestamp) :
    mapGet (mergePods [] [p1, p2]) p2.pubkey = some p2 ∧
    mapGet (mergePods [] [p2, p1]) p2.pubkey = some p2 ∧
    (∀ (m : List (String × Pod)) (pod existing : Pod),
      mapGet m pod.pubkey = some existing →
      ¬ existing.last_seen_timestamp < pod.last_seen_timestamp →
      mergePod m pod = m) ∧
    (∀ q1 q2 : Pod, q1.pubkey = q2.pubkey →
      q1.last_seen_timestamp = q2.last_seen_timestamp →
      mapGet (mergePods [] [q1, q2]) q1.pubkey = some q1) := by
  refine ⟨?_, ?_, ?_, ?_⟩
  · have h1 : mergePod [] p1 = [(p1.pubkey, p1)] := rfl
    have h2 : mergePods [] [p1, p2] = mergePod [(p1.pubkey, p1)] p2 := by
      simp [mergePods, List.foldl_cons, h1]
    rw [h2]
    unfold mergePod
    rw [show mapGet [(p1.pubkey, p1)] p2.pubkey = some p1 by
      simp [mapGet, hk]]
    dsimp only
    rw [if_pos (show p2.last_seen_timestamp > p1.last_seen_timestamp by
      omega)]
    rw [show mapSet [(p1.pubkey, p1)] p2.pubkey p2 =
      [(p2.pubkey, p2)] by simp [mapSet, hk]]
    simp [mapGet]
  · have h1 : mergePod [] p2 = [(p2.pubkey, p2)] := rfl
    have h2 : mergePods [] [p2, p1] = mergePod [(p2.pubkey, p2)] p1 := by
      simp [mergePods, List.foldl_cons, h1]
    rw [h2]
    unfold mergePod
    rw [show mapGet [(p2.pubkey, p2)] p1.pubkey = some p2 by
      simp [mapGet, hk]]
    dsimp only
    rw [if_neg (show ¬ p1.last_seen_timestamp > p2.last_seen_timestamp by
      omega)]
    simp [mapGet]
  · intro m pod existing hg hlt'
    unfold mergePod
    rw [hg]
    dsimp only
    rw [if_neg (show ¬ pod.last_seen_timestamp >
      existing.last_seen_timestamp by omega)]
  · intro q1 q2 hk' ht'
    have h1 : mergePod [] q1 = [(q1.pubkey, q1)] := rfl
    have h2 : mergePods [] [q1, q2] = mergePod [(q1.pubkey, q1)] q2 := by
      simp [mergePods, List.foldl_cons, h1]
    rw [h2]
    unfold mergePod
    rw [show mapGet [(q1.pubkey, q1)] q2.pubkey = some q1 by
      simp [mapGet, hk']]
    dsimp only
    rw [if_neg (show ¬ q2.last_seen_timestamp > q1.last_seen_timestamp by
      omega)]
    simp [mapGet]

/-- Witness for C2: `podA` and `podA2` share a pubkey with timestamps
1000 < 1500, so the merged record is `podA2` in both orders, and the tie
between `podA` and `podATie` keeps the earlier-processed `podA`. -/
theorem merge_max_wins_witness :
    mapGet (mergePods [] [podA, podA2]) podA2.pubkey = some podA2 ∧
    mapGet (mergePods [] [podA2, podA]) podA2.pubkey = some podA2 ∧
    mapGet (mergePods [] [podA, podATie]) podA.pubkey = some podA :=
  ⟨(merge_max_wins podA podA2 (by decide) (by decide)).1,
   (merge_max_wins podA podA2 (by decide) (by decide)).2.1,
   (merge_max_wins podA podA2 (by decide) (by decide)).2.2.2 podA podATie
     (by decide) (by decide)⟩

/-- C3 counterexample: `podA` and `podATie` report the same pubkey with
the same timestamp but different addresses.  Folding them in the two
possible orders (the same multiset of reports, the same timestamp set per
pubkey) yields different merged records for that pubkey — `podA` in one
order, `podATie` in the other — so Peer Merge as implemented is not
order-independent on timestamp ties. -/
theorem merge_order_dependent_on_tie :
    [podA, podATie].Perm [podATie, podA] ∧
    mapGet (mergePods [] [podA, podATie]) podA.pubkey = some podA ∧
    mapGet (mergePods [] [podATie, podA]) podA.pubkey = some podATie ∧
    podA ≠ podATie := by
  refine ⟨List.Perm.swap podATie podA [], by decide, by decide, by decide⟩

/-- C3 amended: unconditionally — for every report list, ties included —
the surviving record for every pubkey is one of that pubkey's reports
carrying its maximum timestamp; and Peer Merge is order-independent
provided no two distinct reports of the same pubkey carry the same
timestamp (the code resolves such ties by arrival order). -/
theorem merge_order_independent (pods pods' : List Pod) :
    (∀ k r, mapGet (mergePods [] pods) k = some r →
      r ∈ pods ∧ r.pubkey = k ∧
      ∀ q ∈ pods, q.pubkey = k →
        q.last_seen_timestamp ≤ r.last_seen_timestamp) ∧
    (pods.Perm pods' →
      (∀ a ∈ pods, ∀ b ∈ pods, a.pubkey = b.pubkey →
        a.last_seen_timestamp = b.last_seen_timestamp → a = b) →
      ∀ k, mapGet (mergePods [] pods) k =
        mapGet (mergePods [] pods') k) := by
  have hchar : ∀ (l : List Pod) (k : String),
      mapGet (mergePods [] l) k =
        (l.filter (fun p => p.pubkey == k)).foldl stepWinner none := by
    intro l k
    rw [mapGet_mergePods l [] k]
    rfl
  have hspec : ∀ (l : List Pod) (k : String) (r : Pod),
      mapGet (mergePods [] l) k = some r →
      r ∈ l ∧ r.pubkey = k ∧
      ∀ q ∈ l, q.pubkey = k →
        q.last_seen_timestamp ≤ r.last_seen_timestamp := by
    intro l k r h
    rw [hchar] at h
    obtain ⟨hmem, hall, _⟩ :=
      foldl_stepWinner_spec (l.filter (fun p => p.pubkey == k)) none r h
    rcases hmem with hm | hm
    swap
    · exact absurd hm (by simp)
    · have hmem' := List.mem_filter.mp hm
      refine ⟨hmem'.1, by simpa using hmem'.2, ?_⟩
      intro q hq hqk
      exact hall q (List.mem_filter.mpr ⟨hq, by simpa using hqk⟩)
  refine ⟨hspec pods, ?_⟩
  intro hperm hdist k
  have hpf : (pods.filter (fun p => p.pubkey == k)).Perm
      (pods'.filter (fun p => p.pubkey == k)) := hperm.filter _
  cases hemp : pods.filter (fun p => p.pubkey == k) with
  | nil =>
    have hemp' : pods'.filter (fun p => p.pubkey == k) = [] := by
      rw [hemp] at hpf
      exact hpf.symm.eq_nil
    rw [hchar, hchar, hemp, hemp']
  | cons p rest =>
    have hne : pods.filter (fun p => p.pubkey == k) ≠ [] := by
      rw [hemp]
      simp
    have hne' : pods'.filter (fun p => p.pubkey == k) ≠ [] := by
      intro hhh
      rw [hhh] at hpf
      exact hne hpf.eq_nil
    obtain ⟨r, hr⟩ :=
      foldl_stepWinner_none_isSome _ hne
    obtain ⟨r', hr'⟩ :=
      foldl_stepWinner_none_isSome _ hne'
    have h1 := hspec pods k r (by rw [hchar]; exact hr)
    have h2 := hspec pods' k r' (by rw [hchar]; exact hr')
    have hr'pods : r' ∈ pods := hperm.symm.subset h2.1
    have hrpods' : r ∈ pods' := hperm.subset h1.1
    have hts1 : r.last_seen_timestamp ≤ r'.last_seen_timestamp :=
      h2.2.2 r hrpods' h1.2.1
    have hts2 : r'.last_seen_timestamp ≤ r.last_seen_timestamp :=
      h1.2.2 r' hr'pods h2.2.1
    have heq : r = r' :=
      hdist r h1.1 r' hr'pods (by rw [h1.2.1, h2.2.1]) (by omega)
    rw [hchar, hchar, hr, hr', heq]

/-- Witness for C3 amended: a concrete permutation of three reports with
pairwise-distinct timestamps per pubkey merges to the same record for
`podA`'s pubkey in both orders; and on the tied list `[podA, podATie]`
the unconditional max-wins clause bounds the tied report's timestamp by
the survivor's. -/
theorem merge_order_independent_witness :
    mapGet (mergePods [] [podA, podB, podA2])
        "aaaaaaaaaaaaaaaaaaaaaaaaaaaaaaaa" =
      mapGet (mergePods [] [podB, podA2, podA])
        "aaaaaaaaaaaaaaaaaaaaaaaaaaaaaaaa" ∧
    podATie.last_seen_timestamp ≤ podA.last_seen_timestamp :=
  ⟨(merge_order_independent [podA, podB, podA2] [podB, podA2, podA]).2
      (by decide) (by decide) "aaaaaaaaaaaaaaaaaaaaaaaaaaaaaaaa",
   ((merge_order_independent [podA, podATie] [podA, podATie]).1
       "aaaaaaaaaaaaaaaaaaaaaaaaaaaaaaaa" podA (by decide)).2.2 podATie
     (by decide) (by decide)⟩

/-- C7 (evaluating the code at the divergent transport): on the browser
`fetch` path a timeout abort — a thrown `Error` named "AbortError" — is
classified by `PrpcClient.call`'s catch clause as a `TimeoutError`
carrying the configured duration and the target endpoint; but on the Node
`http` path the abort rejection is `new Error("Request aborted")`, whose
`name` is "Error", so the same catch clause classifies a timeout as a
`NetworkError`, never a `TimeoutError` — contradicting the claim that
both execution paths of the HTTP transport yield `TimeoutError`. -/
theorem timeout_classification_paths :
    (∀ (t : Int) (u msg : String),
      classifyCatch t u (browserTimeoutThrown msg) = .timeoutError t u) ∧
    (∀ (t : Int) (u : String),
      classifyCatch t u nodeTimeoutThrown =
        .networkError "Request aborted") ∧
    (∀ (t : Int) (u : String),
      isTimeoutError (classifyCatch t u nodeTimeoutThrown) = false) ∧
    classifyCatch (clientTimeout none)
        (clientBaseUrl "173.212.220.65" none) nodeTimeoutThrown ≠
      .timeoutError (clientTimeout none)
        (clientBaseUrl "173.212.220.65" none) := by
  refine ⟨?_, ?_, ?_, ?_⟩
  · intro t u msg
    rfl
  · intro t u
    rfl
  · intro t u
    rfl
  · decide

/-- C8 counterexample: `mixedPodsJson` is a get-pods result payload
containing one well-formed and one malformed peer entry.  The claim says
such a response fails validation; instead the schema validates it
successfully, silently removing the malformed entry (no `ValidationError`
is produced, and the well-formed entry survives unaltered). -/
theorem podsValidation_filters_counterexample :
    validatePodsResult mixedPodsJson = .ok ⟨[podA], 2⟩ ∧
    parsePod badPodJson = none := by
  exact ⟨rfl, rfl⟩

/-- C8 amended: a result payload whose top-level shape the get-pods schema
rejects makes the client fail with a `ValidationError` carrying non-empty
structured per-field issues; but the schema pre-filters peer entries, so a
payload whose top level is well-formed validates successfully with exactly
the `PodSchema`-accepted entries kept — a malformed peer entry is removed,
not a validation failure. -/
theorem podsValidation_amended :
    (∀ j issues, parsePodsResponse j = .error issues →
      validatePodsResult j =
        .error (.validationError "Response validation failed" issues) ∧
      issues ≠ []) ∧
    (∀ (elems : List Json) (n : Int), n ≥ 0 →
      parsePodsResponse
          (.obj [("pods", .arr elems), ("total_count", .num n)]) =
        .ok ⟨elems.filterMap parsePod, n⟩) := by
  constructor
  · intro j issues h
    refine ⟨by unfold validatePodsResult; rw [h], ?_⟩
    unfold parsePodsResponse at h
    split at h
    · split at h
      · split at h
        · split at h
          · exact absurd h (by simp)
          · injection h with h
            subst h
            simp
        · injection h with h
          subst h
          simp
        · injection h with h
          subst h
          simp
      · injection h with h
        subst h
        simp
      · injection h with h
        subst h
        simp
    · injection h with h
      subst h
      simp
  · intro elems n hn
    rw [show parsePodsResponse
        (.obj [("pods", .arr elems), ("total_count", .num n)]) =
      if n ≥ 0 then .ok ⟨elems.filterMap parsePod, n⟩
      else .error
        [⟨"total_count", "Number must be greater than or equal to 0"⟩]
      from rfl]
    rw [if_pos hn]

/-- Witness for C8 amended: a payload whose `pods` field is not an array
fails validation with a non-empty issues list, and a well-formed payload
with a mixed entry list keeps exactly the parseable entries. -/
theorem podsValidation_amended_witness :
    (validatePodsResult (.obj [("pods", .num 3), ("total_count", .num 1)]) =
        .error (.validationError "Response validation failed"
          [⟨"pods", "Expected array"⟩]) ∧
      ([⟨"pods", "Expected array"⟩] : List Issue) ≠ []) ∧
    parsePodsResponse
        (.obj [("pods", .arr [goodPodJson, badPodJson]),
               ("total_count", .num 2)]) =
      .ok ⟨[goodPodJson, badPodJson].filterMap parsePod, 2⟩ :=
  ⟨podsValidation_amended.1 (.obj [("pods", .num 3), ("total_count", .num 1)])
      [⟨"pods", "Expected array"⟩] rfl,
   podsValidation_amended.2 [goodPodJson, badPodJson] 2 (by decide)⟩

/-- C6: telemetry enrichment processes the peer list in consecutive
batches of size at most the concurrency limit: the batch decomposition
covers the peer list exactly once in order, every batch has size at most
`c`, the settled results are those of the whole list, and in the trace
model — where each batch launches all its calls and every call settles
before the next batch starts — the number of simultaneously in-flight
telemetry calls never exceeds `c`, for every peer list (including lists
longer than `c`). -/
theorem processBatch_concurrency_bound (items : List Pod)
    (outcome : Pod → Except PrpcFailure NodeStats) (c : Nat)
    (hc : 0 < c) :
    (∀ b ∈ chunkList c items, b.length ≤ c) ∧
    (chunkList c items).flatten = items ∧
    processBatch items outcome c = items.map (settleEntry outcome) ∧
    maxInFlight (scheduleEvents (chunkList c items)) ≤ c :=
  ⟨fun b hb => chunkList_length_le c items b hb,
   chunkList_flatten c hc items,
   processBatch_eq items outcome c hc,
   maxInFlight_bound c _ (fun b hb => chunkList_length_le c items b hb)⟩

/-- Witness for C6: twelve peers under the default concurrency limit 10 —
the observed in-flight maximum stays at most 10 and the batches cover the
list. -/
theorem processBatch_concurrency_bound_witness :
    maxInFlight (scheduleEvents (chunkList 10 (List.replicate 12 podA)))
        ≤ 10 ∧
    (chunkList 10 (List.replicate 12 podA)).flatten =
      List.replicate 12 podA :=
  ⟨(processBatch_concurrency_bound (List.replicate 12 podA)
      (fun _ => .error (.networkError "down")) 10 (by decide)).2.2.2,
   (processBatch_concurrency_bound (List.replicate 12 podA)
      (fun _ => .error (.networkError "down")) 10 (by decide)).2.1⟩

/-- C1: the orchestrator is, in the embedding, a total function from the
per-source and per-peer settled outcomes (covering success and all four
error kinds — network, timeout, RPC, validation) to a `CollectionResult`,
so no failure propagates out of it; and failures become data: the error
list is exactly one `seed_unreachable` entry per failed bootstrap source
followed by the per-peer `stats_unreachable` entries, and every per-peer
telemetry failure is reflected in the peer's record (`stats = null`) and —
for kinds other than timeout/network — additionally converted into a
`CollectionError` entry. -/
theorem collect_failures_captured (cfg : CollectorConfig) (now : Int)
    (seedOutcome : String → Except PrpcFailure PodsResponse)
    (statsOutcome : Pod → Except PrpcFailure NodeStats)
    (creditsOutcome : Except String (List (String × Int)))
    (d : Int) (ca : String) (hc : 0 < cfg.concurrency) :
    (collectNetworkSnapshot cfg now seedOutcome statsOutcome creditsOutcome
        d ca).errors =
      cfg.seeds.filterMap (seedErrOf seedOutcome) ++
        (if cfg.fetchStats ∧
            (podMapOf seedOutcome cfg.seeds).map Prod.snd ≠ [] then
          ((podMapOf seedOutcome cfg.seeds).map Prod.snd).filterMap
            (statErrOf statsOutcome)
        else []) ∧
    ∀ pod ∈ (podMapOf seedOutcome cfg.seeds).map Prod.snd,
      ∀ e, statsOutcome pod = .error e → cfg.fetchStats = true →
        (∃ n ∈ (collectNetworkSnapshot cfg now seedOutcome statsOutcome
            creditsOutcome d ca).nodes,
          n.pubkey = pod.pubkey ∧ n.stats = none) ∧
        ((isTimeoutError e || isNetworkError e) = false →
          (⟨.stats_unreachable, pod.pubkey.take 8, e.errMessage⟩ :
              CollectionError) ∈
            (collectNetworkSnapshot cfg now seedOutcome statsOutcome
              creditsOutcome d ca).errors) := by
  rw [collect_eq cfg now seedOutcome statsOutcome creditsOutcome d ca hc]
  constructor
  · rfl
  · intro pod hpod e he hfs
    have hne : (podMapOf seedOutcome cfg.seeds).map Prod.snd ≠ [] :=
      List.ne_nil_of_mem hpod
    have hifc : cfg.fetchStats ∧
        (podMapOf seedOutcome cfg.seeds).map Prod.snd ≠ [] := ⟨hfs, hne⟩
    have hse : settleEntry statsOutcome pod = ⟨pod, none, some e⟩ := by
      unfold settleEntry
      rw [he]
    have hfields := enrichEntry_fields now (settleEntry statsOutcome pod)
    have hpk :
        (enrichEntry now (settleEntry statsOutcome pod)).pubkey =
          pod.pubkey := by
      rw [hfields.1, hse]
    have hst :
        (enrichEntry now (settleEntry statsOutcome pod)).stats = none := by
      rw [hfields.2.2.1, hse]
    constructor
    · dsimp only
      rw [if_pos hifc]
      have hb : enrichEntry now (settleEntry statsOutcome pod) ∈
          ((podMapOf seedOutcome cfg.seeds).map Prod.snd).map
            (fun pod => enrichEntry now (settleEntry statsOutcome pod)) :=
        List.mem_map_of_mem _ hpod
      by_cases hcr : cfg.fetchCredits
      · rw [if_pos hcr]
        obtain ⟨n, hn, hnpk, hnst, _⟩ :=
          mergeCredits_exists (fetchPodsCredits creditsOutcome) _ _ hb
        exact ⟨n, hn, by rw [hnpk, hpk], by rw [hnst, hst]⟩
      · rw [if_neg hcr]
        exact ⟨_, hb, hpk, hst⟩
    · intro hkind
      dsimp only
      rw [if_pos hifc]
      simp only [Bool.or_eq_false_iff] at hkind
      have hserr : statErrOf statsOutcome pod =
          some ⟨.stats_unreachable, pod.pubkey.take 8, e.errMessage⟩ := by
        unfold statErrOf
        rw [he]
        dsimp only
        rw [if_pos (by simp [hkind.1, hkind.2])]
      exact List.mem_append_right _
        (List.mem_filterMap.mpr ⟨pod, hpod, hserr⟩)

/-- Witness for C1: two seeds of which one fails, one discovered pod whose
telemetry call fails with an RPC error — the error list is the failed
seed's entry followed by the pod's `stats_unreachable` entry. -/
theorem collect_failures_captured_witness :
    (collectNetworkSnapshot cfgW2 1000 soW stoFail (.error "skip") 5
        "t").errors =
      cfgW2.seeds.filterMap (seedErrOf soW) ++
        (if cfgW2.fetchStats ∧
            (podMapOf soW cfgW2.seeds).map Prod.snd ≠ [] then
          ((podMapOf soW cfgW2.seeds).map Prod.snd).filterMap
            (statErrOf stoFail)
        else []) :=
  (collect_failures_captured cfgW2 1000 soW stoFail (.error "skip") 5 "t"
    (by decide)).1

/-- C5: a discovered peer whose telemetry call fails with a timeout or a
network error appears in the Snapshot with no telemetry attached
(`stats = null`) and with the timestamp-derived classification, except
that `online` is downgraded to `degraded`; in particular a peer with a
fresh `last_seen_timestamp` (age below 240s) whose direct call times out
appears with `stats = null` and `status = degraded`, not `online`. -/
theorem telemetry_timeout_degrades (cfg : CollectorConfig) (now : Int)
    (seedOutcome : String → Except PrpcFailure PodsResponse)
    (statsOutcome : Pod → Except PrpcFailure NodeStats)
    (creditsOutcome : Except String (List (String × Int)))
    (d : Int) (ca : String) (hc : 0 < cfg.concurrency)
    (hfs : cfg.fetchStats = true) (pod : Pod)
    (hpod : pod ∈ (podMapOf seedOutcome cfg.seeds).map Prod.snd)
    (e : PrpcFailure) (he : statsOutcome pod = .error e)
    (_hkind : isTimeoutError e = true ∨ isNetworkError e = true) :
    ∃ n ∈ (collectNetworkSnapshot cfg now seedOutcome statsOutcome
        creditsOutcome d ca).nodes,
      n.pubkey = pod.pubkey ∧ n.stats = none ∧
      n.status =
        (if determineNodeStatus now pod.last_seen_timestamp = .online
         then .degraded
         else determineNodeStatus now pod.last_seen_timestamp) ∧
      (now - pod.last_seen_timestamp < 240 → n.status = .degraded) := by
  rw [collect_eq cfg now seedOutcome statsOutcome creditsOutcome d ca hc]
  have hne : (podMapOf seedOutcome cfg.seeds).map Prod.snd ≠ [] :=
    List.ne_nil_of_mem hpod
  have hifc : cfg.fetchStats ∧
      (podMapOf seedOutcome cfg.seeds).map Prod.snd ≠ [] := ⟨hfs, hne⟩
  have hse : settleEntry statsOutcome pod = ⟨pod, none, some e⟩ := by
    unfold settleEntry
    rw [he]
  have hfields := enrichEntry_fields now (settleEntry statsOutcome pod)
  have hpk :
      (enrichEntry now (settleEntry statsOutcome pod)).pubkey =
        pod.pubkey := by
    rw [hfields.1, hse]
  have hst :
      (enrichEntry now (settleEntry statsOutcome pod)).stats = none := by
    rw [hfields.2.2.1, hse]
  have hstat :
      (enrichEntry now (settleEntry statsOutcome pod)).status =
        (if determineNodeStatus now pod.last_seen_timestamp = .online
         then .degraded
         else determineNodeStatus now pod.last_seen_timestamp) := by
    rw [enrichEntry_none_status now _ (by rw [hse])]
    rw [settleEntry_item]
  have hfresh : now - pod.last_seen_timestamp < 240 →
      (if determineNodeStatus now pod.last_seen_timestamp = .online
       then NodeStatus.degraded
       else determineNodeStatus now pod.last_seen_timestamp) =
        .degraded := by
    intro h240
    have hon : determineNodeStatus now pod.last_seen_timestamp =
        .online := by
      simp [determineNodeStatus, h240]
    rw [hon]
    rfl
  dsimp only
  rw [if_pos hifc]
  have hb : enrichEntry now (settleEntry statsOutcome pod) ∈
      ((podMapOf seedOutcome cfg.seeds).map Prod.snd).map
        (fun pod => enrichEntry now (settleEntry statsOutcome pod)) :=
    List.mem_map_of_mem _ hpod
  by_cases hcr : cfg.fetchCredits
  · rw [if_pos hcr]
    obtain ⟨n, hn, hnpk, hnst, hnstatus⟩ :=
      mergeCredits_exists (fetchPodsCredits creditsOutcome) _ _ hb
    refine ⟨n, hn, by rw [hnpk, hpk], by rw [hnst, hst], ?_, ?_⟩
    · rw [hnstatus, hstat]
    · intro h240
      rw [hnstatus, hstat]
      exact hfresh h240
  · rw [if_neg hcr]
    refine ⟨_, hb, hpk, hst, hstat, ?_⟩
    intro h240
    rw [hstat]
    exact hfresh h240

/-- Witness for C5: a single fresh pod (timestamp equal to `now`) whose
telemetry call times out appears with `stats = none` and a degraded (not
online) status. -/
theorem telemetry_timeout_degrades_witness :
    ∃ n ∈ (collectNetworkSnapshot cfgW 1000 soOkA stoTimeout
        (.error "skip") 5 "t").nodes,
      n.pubkey = podA.pubkey ∧ n.stats = none ∧
      n.status =
        (if determineNodeStatus 1000 podA.last_seen_timestamp = .online
         then .degraded
         else determineNodeStatus 1000 podA.last_seen_timestamp) ∧
      (1000 - podA.last_seen_timestamp < 240 → n.status = .degraded) :=
  telemetry_timeout_degrades cfgW 1000 soOkA stoTimeout (.error "skip") 5
    "t" (by decide) rfl podA (by decide) _ rfl (Or.inl rfl)

/-- C9: credit enrichment is best-effort and isolated.  On any failed
credits fetch the Snapshot equals the one produced with credits disabled
(timing metadata is a parameter of the embedding, so the results agree
exactly): no `CollectionError` is added, the peer set is unchanged, and
every node's `credits` stays `undefined`.  On success, `credits` is set
exactly from the entry matching the node's pubkey — nodes without a
matching entry keep `credits = undefined`. -/
theorem credits_best_effort (cfg : CollectorConfig) (now : Int)
    (seedOutcome : String → Except PrpcFailure PodsResponse)
    (statsOutcome : Pod → Except PrpcFailure NodeStats)
    (d : Int) (ca : String) (hc : 0 < cfg.concurrency)
    (hcr : cfg.fetchCredits = true) :
    (∀ msg : String,
      collectNetworkSnapshot cfg now seedOutcome statsOutcome (.error msg)
          d ca =
        collectNetworkSnapshot { cfg with fetchCredits := false } now
          seedOutcome statsOutcome (.error msg) d ca ∧
      ∀ n ∈ (collectNetworkSnapshot cfg now seedOutcome statsOutcome
          (.error msg) d ca).nodes, n.credits = none) ∧
    (∀ entries : List (String × Int),
      ∀ n ∈ (collectNetworkSnapshot cfg now seedOutcome statsOutcome
          (.ok entries) d ca).nodes,
        n.credits = creditsGet entries n.pubkey) := by
  have base_credits_none : ∀ b ∈
      (if cfg.fetchStats ∧
          (podMapOf seedOutcome cfg.seeds).map Prod.snd ≠ [] then
        ((podMapOf seedOutcome cfg.seeds).map Prod.snd).map
          (fun pod => enrichEntry now (settleEntry statsOutcome pod))
      else
        ((podMapOf seedOutcome cfg.seeds).map Prod.snd).map
          (plainNode now)),
      b.credits = none := by
    intro b hb
    by_cases hifc : cfg.fetchStats ∧
        (podMapOf seedOutcome cfg.seeds).map Prod.snd ≠ []
    · rw [if_pos hifc] at hb
      obtain ⟨pod, _, rfl⟩ := List.mem_map.mp hb
      exact (enrichEntry_fields now _).2.2.2
    · rw [if_neg hifc] at hb
      obtain ⟨pod, _, rfl⟩ := List.mem_map.mp hb
      rfl
  constructor
  · intro msg
    constructor
    · rw [collect_eq cfg now seedOutcome statsOutcome (.error msg) d ca hc,
        collect_eq { cfg with fetchCredits := false } now seedOutcome
          statsOutcome (.error msg) d ca hc]
      rw [if_pos hcr, if_neg (show ¬ ({ cfg with fetchCredits := false } :
        CollectorConfig).fetchCredits = true by simp)]
      rw [show fetchPodsCredits (Except.error msg) =
        ([] : List (String × Int)) from rfl, mergeCredits_empty]
      rfl
    · intro n hn
      rw [collect_eq cfg now seedOutcome statsOutcome (.error msg) d ca
        hc] at hn
      dsimp only at hn
      rw [if_pos hcr] at hn
      rw [show fetchPodsCredits (Except.error msg) =
        ([] : List (String × Int)) from rfl, mergeCredits_empty] at hn
      exact base_credits_none n hn
  · intro entries n hn
    rw [collect_eq cfg now seedOutcome statsOutcome (.ok entries) d ca
      hc] at hn
    dsimp only at hn
    rw [if_pos hcr] at hn
    exact mergeCredits_credits (fetchPodsCredits (.ok entries)) _
      base_credits_none n hn

/-- Witness for C9: with the credits source failing with HTTP 500, the
Snapshot equals the credits-disabled one. -/
theorem credits_best_effort_witness :
    collectNetworkSnapshot { cfgW with fetchCredits := true } 1000 soOkA
        stoOk (.error "HTTP 500: Internal Server Error") 5 "t" =
      collectNetworkSnapshot { cfgW with fetchCredits := false } 1000
        soOkA stoOk (.error "HTTP 500: Internal Server Error") 5 "t" :=
  ((credits_best_effort { cfgW with fetchCredits := true } 1000 soOkA
      stoOk 5 "t" (by decide) rfl).1 "HTTP 500: Internal Server Error").1

/-- C10: every Snapshot satisfies `nodes.length = total_discovered` with
pairwise-distinct node pubkeys (every merged pubkey appears exactly once,
with or without telemetry); `total_with_stats` equals the number of nodes
whose `stats` is non-null, hence `total_with_stats ≤ total_discovered`;
and with `fetchStats = false`, `total_with_stats = 0` and every node has
`stats = null`. -/
theorem snapshot_invariants (cfg : CollectorConfig) (now : Int)
    (seedOutcome : String → Except PrpcFailure PodsResponse)
    (statsOutcome : Pod → Except PrpcFailure NodeStats)
    (creditsOutcome : Except String (List (String × Int)))
    (d : Int) (ca : String) (hc : 0 < cfg.concurrency) :
    (collectNetworkSnapshot cfg now seedOutcome statsOutcome creditsOutcome
        d ca).nodes.length =
      (collectNetworkSnapshot cfg now seedOutcome statsOutcome
        creditsOutcome d ca).total_discovered ∧
    ((collectNetworkSnapshot cfg now seedOutcome statsOutcome
        creditsOutcome d ca).nodes.map (fun n => n.pubkey)).Nodup ∧
    (collectNetworkSnapshot cfg now seedOutcome statsOutcome creditsOutcome
        d ca).total_with_stats =
      ((collectNetworkSnapshot cfg now seedOutcome statsOutcome
        creditsOutcome d ca).nodes.filter
          (fun n => n.stats.isSome)).length ∧
    (collectNetworkSnapshot cfg now seedOutcome statsOutcome creditsOutcome
        d ca).total_with_stats ≤
      (collectNetworkSnapshot cfg now seedOutcome statsOutcome
        creditsOutcome d ca).total_discovered ∧
    (cfg.fetchStats = false →
      (collectNetworkSnapshot cfg now seedOutcome statsOutcome
        creditsOutcome d ca).total_with_stats = 0 ∧
      ∀ n ∈ (collectNetworkSnapshot cfg now seedOutcome statsOutcome
        creditsOutcome d ca).nodes, n.stats = none) := by
  rw [collect_eq cfg now seedOutcome statsOutcome creditsOutcome d ca hc]
  dsimp only
  have hkeys : KeysOk (podMapOf seedOutcome cfg.seeds) :=
    keysOk_mergePods _ _ keysOk_nil
  have hpods_pubkey :
      ((podMapOf seedOutcome cfg.seeds).map Prod.snd).map
          (fun p => p.pubkey) =
        (podMapOf seedOutcome cfg.seeds).map Prod.fst := by
    rw [List.map_map]
    exact List.map_congr_left (fun p hp => hkeys.2 p hp)
  have hnodes_facts : ∀ base : List NodeWithStats,
      ((if cfg.fetchCredits then
          mergeCredits (fetchPodsCredits creditsOutcome)
        else id) base).length = base.length ∧
      ((if cfg.fetchCredits then
          mergeCredits (fetchPodsCredits creditsOutcome)
        else id) base).map (fun n => n.pubkey) =
        base.map (fun n => n.pubkey) ∧
      ((if cfg.fetchCredits then
          mergeCredits (fetchPodsCredits creditsOutcome)
        else id) base).countP (fun n => n.stats.isSome) =
        base.countP (fun n => n.stats.isSome) ∧
      (∀ n ∈ (if cfg.fetchCredits then
          mergeCredits (fetchPodsCredits creditsOutcome)
        else id) base, ∃ b ∈ base, n.stats = b.stats) := by
    intro base
    by_cases hcr : cfg.fetchCredits
    · rw [if_pos hcr]
      exact ⟨mergeCredits_length _ _, mergeCredits_pubkey_map _ _,
        mergeCredits_countP_stats _ _,
        fun n hn => mem_mergeCredits_stats _ _ n hn⟩
    · rw [if_neg hcr]
      exact ⟨rfl, rfl, rfl, fun n hn => ⟨n, hn, rfl⟩⟩
  have hbase_len :
      (if cfg.fetchStats ∧
          (podMapOf seedOutcome cfg.seeds).map Prod.snd ≠ [] then
        ((podMapOf seedOutcome cfg.seeds).map Prod.snd).map
          (fun pod => enrichEntry now (settleEntry statsOutcome pod))
      else
        ((podMapOf seedOutcome cfg.seeds).map Prod.snd).map
          (plainNode now)).length =
        (podMapOf seedOutcome cfg.seeds).length := by
    split <;> rw [List.length_map, List.length_map]
  have hbase_pubkey :
      (if cfg.fetchStats ∧
          (podMapOf seedOutcome cfg.seeds).map Prod.snd ≠ [] then
        ((podMapOf seedOutcome cfg.seeds).map Prod.snd).map
          (fun pod => enrichEntry now (settleEntry statsOutcome pod))
      else
        ((podMapOf seedOutcome cfg.seeds).map Prod.snd).map
          (plainNode now)).map (fun n => n.pubkey) =
        (podMapOf seedOutcome cfg.seeds).map Prod.fst := by
    split
    · rw [List.map_map, List.map_map, ← hpods_pubkey, List.map_map]
      apply List.map_congr_left
      intro p _
      show (enrichEntry now (settleEntry statsOutcome p.2)).pubkey =
        p.2.pubkey
      rw [(enrichEntry_fields now _).1, settleEntry_item]
    · rw [List.map_map, List.map_map, ← hpods_pubkey, List.map_map]
      apply List.map_congr_left
      intro p _
      rfl
  have hbase_count :
      (if cfg.fetchStats ∧
          (podMapOf seedOutcome cfg.seeds).map Prod.snd ≠ [] then
        ((podMapOf seedOutcome cfg.seeds).map Prod.snd).map
          (fun pod => enrichEntry now (settleEntry statsOutcome pod))
      else
        ((podMapOf seedOutcome cfg.seeds).map Prod.snd).map
          (plainNode now)).countP (fun n => n.stats.isSome) =
        (if cfg.fetchStats ∧
            (podMapOf seedOutcome cfg.seeds).map Prod.snd ≠ [] then
          ((podMapOf seedOutcome cfg.seeds).map Prod.snd).countP
            (fun pod => (settleEntry statsOutcome pod).result.isSome)
        else 0) := by
    split
    · rw [List.countP_map]
      apply List.countP_congr
      intro pod _
      show (enrichEntry now (settleEntry statsOutcome pod)).stats.isSome =
          true ↔
        (settleEntry statsOutcome pod).result.isSome = true
      rw [(enrichEntry_fields now _).2.2.1]
    · rw [List.countP_eq_zero]
      intro n hn
      obtain ⟨pod, _, rfl⟩ := List.mem_map.mp hn
      simp [plainNode]
  refine ⟨?_, ?_, ?_, ?_, ?_⟩
  · rw [(hnodes_facts _).1, hbase_len]
  · rw [(hnodes_facts _).2.1, hbase_pubkey]
    exact hkeys.1
  · rw [← List.countP_eq_length_filter, (hnodes_facts _).2.2.1,
      hbase_count]
  · split
    · exact le_trans (List.countP_le_length _)
        (le_of_eq (List.length_map _ _))
    · exact Nat.zero_le _
  · intro hfs
    have hifc : ¬ (cfg.fetchStats ∧
        (podMapOf seedOutcome cfg.seeds).map Prod.snd ≠ []) := by
      intro hh
      rw [hfs] at hh
      exact absurd hh.1 (by simp)
    constructor
    · rw [if_neg hifc]
    · intro n hn
      obtain ⟨b, hb, hstats⟩ := (hnodes_facts _).2.2.2 n hn
      rw [if_neg hifc] at hb
      obtain ⟨pod, _, rfl⟩ := List.mem_map.mp hb
      rw [hstats]
      rfl

/-- Witness for C10 at a concrete run: two seeds (one failing), one
discovered pod whose telemetry call fails. -/
theorem snapshot_invariants_witness :
    (collectNetworkSnapshot cfgW2 1000 soW stoFail (.error "skip") 5
        "t").nodes.length =
      (collectNetworkSnapshot cfgW2 1000 soW stoFail (.error "skip") 5
        "t").total_discovered ∧
    (collectNetworkSnapshot cfgW2 1000 soW stoFail (.error "skip") 5
        "t").total_with_stats ≤
      (collectNetworkSnapshot cfgW2 1000 soW stoFail (.error "skip") 5
        "t").total_discovered :=
  ⟨(snapshot_invariants cfgW2 1000 soW stoFail (.error "skip") 5 "t"
      (by decide)).1,
   (snapshot_invariants cfgW2 1000 soW stoFail (.error "skip") 5 "t"
      (by decide)).2.2.2.1⟩

end Atlas
